import Mathlib

/-!
Verification of the forseti-security inventory crawler core
(`google/cloud/forseti/services/inventory/base/resources.py`).

The Python source is shallowly embedded: resource data maps become
association lists `List (String × String)`, exceptions become an explicit
`PyExc` type threaded through `Except`, the `@cached(...)` decorator
becomes an explicit cache cell `Option _` on a state record, and the
traversal engine `Resource.accept` becomes a recursive function from a
resource tree to the list of visitor events it emits plus the list of
callbacks it hands to the dispatch pool.
-/

namespace Forseti

/-- Python exceptions relevant to the crawler.  `apiExecutionError` models
`api_errors.ApiExecutionError`, `resourceNotSupported` models
`ResourceNotSupported`; `keyError` records the missing key of a
`Resource.__getitem__` failure. -/
inductive PyExc where
  | apiExecutionError (msg : String)
  | resourceNotSupported (msg : String)
  | keyError (k : String)
  | attributeError (msg : String)
  | typeError (msg : String)
  | other (msg : String)
deriving DecidableEq, Repr

/-- `str(e)` of an exception, as interpolated into warning messages.
For `KeyError` the `data` part of the message built by
`Resource.__getitem__` is abbreviated to the key. -/
def excStr : PyExc → String
  | .apiExecutionError m => m
  | .resourceNotSupported m => m
  | .keyError k => "key: " ++ k
  | .attributeError m => m
  | .typeError m => m
  | .other m => m

/-- The exception classes caught by the source's
`except (api_errors.ApiExecutionError, ResourceNotSupported)` handlers. -/
def isCaughtApiErr : PyExc → Bool
  | .apiExecutionError _ => true
  | .resourceNotSupported _ => true
  | _ => false

/-- `Resource.__getitem__` (resources.py:192-207): returns `data[key]` or
raises `KeyError`. -/
def getItem (d : List (String × String)) (k : String) : Except PyExc String :=
  match d.lookup k with
  | some v => .ok v
  | none => .error (.keyError k)

/-- The characters after the first `'/'`, if any. -/
def charsAfterSlash : List Char → Option (List Char)
  | [] => none
  | c :: cs => if c == '/' then some cs else charsAfterSlash cs

/-- Python `s.split('/', 1)[-1]`: everything after the first slash, or the
whole string when there is no slash (used by organization/folder `key`). -/
def afterFirstSlash (s : String) : String :=
  match charsAfterSlash s.toList with
  | none => s
  | some cs => String.mk cs

/-- Python `sep.join(l)`. -/
def joinWith (sep : String) : List String → String
  | [] => ""
  | [x] => x
  | x :: xs => x ++ sep ++ joinWith sep xs

/-- Substring test on the underlying characters: does `pat` occur as a
leading segment of `l`? -/
def charsHasPre (pat l : List Char) : Bool :=
  match pat, l with
  | [], _ => true
  | _ :: _, [] => false
  | a :: ps, b :: ls => a == b && charsHasPre ps ls

/-- Substring test: does `pat` occur contiguously anywhere in `l`? -/
def charsHasSub (pat : List Char) : List Char → Bool
  | [] => charsHasPre pat []
  | l@(_ :: rest) => charsHasPre pat l || charsHasSub pat rest

/-- Python's `pat in s` substring containment on strings. -/
def isSubstrOf (pat s : String) : Bool :=
  charsHasSub pat.toList s.toList

/-- Python `s.startswith(pat)`. -/
def startsWithS (s pat : String) : Bool :=
  charsHasPre pat.toList s.toList

/-- `utils.to_type_name` (not under src/, used at resources.py:251):
the `"<type>/<key>"` segment of one resource. -/
def toTypeName (t k : String) : String := t ++ "/" ++ k

/-- Modelled from the spec: `utils.to_full_resource_name` is outside src/;
per the spec a resource's full name is its parent's full name and its own
`type/key` segment joined by `/`, the root contributing an empty prefix. -/
def toFullResourceName (parentFull typeName : String) : String :=
  if parentFull = "" then typeName else parentFull ++ "/" ++ typeName

/-- Slash-join of a list of segments (the spec's
`join("/", [type_tag_i "/" key_i ...])`). -/
def joinSlash : List String → String
  | [] => ""
  | [x] => x
  | x :: xs => x ++ "/" ++ joinSlash xs

/-! ## C10 — `Resource.parent` before and after stack binding

`Resource.__init__` (resources.py:152-173) sets `self._stack = None`;
`Resource.parent` (resources.py:279-290) returns `self` when `_root`,
otherwise `self._stack[-1]` with only `IndexError` caught (returning
`None`).  On the unset stack `None[-1]` raises `TypeError`, which is not
caught. -/

/-- What `Resource.parent()` evaluates to: the resource itself, a parent
identified by its `(type, key)` pair, or Python `None`. -/
inductive ParentRes where
  | selfRes
  | par (p : String × String)
  | noneRes
deriving DecidableEq, Repr

/-- The initial value of `Resource._stack` set by `__init__`
(resources.py:167): Python `None`, before `accept` binds the stack. -/
def initStackR : Option (List (String × String)) := none

/-- `Resource.parent` (resources.py:279-290). -/
def parentOf (isRoot : Bool) (stack : Option (List (String × String))) :
    Except PyExc ParentRes :=
  if isRoot then .ok .selfRes
  else
    match stack with
    | none => .error (.typeError "NoneType object is not subscriptable")
    | some l =>
      match l.getLast? with
      | none => .ok .noneRes
      | some p => .ok (.par p)

/-! ## C8 — `Resource.get_full_resource_name` (resources.py:242-260)

The resource chain is modelled with the immediate parent first
(`rstack.head? = parent()`), i.e. the reverse of the Python `_stack`.
Each node carries its `_full_resource_name` cache cell. -/

/-- One resource as seen by `get_full_resource_name`: its type tag, its
(already computed) key, its `_root` flag and its `_full_resource_name`
cache cell. -/
structure FNode where
  rtype : String
  key : String
  isRoot : Bool
  frnCache : Option String
deriving DecidableEq, Repr

/-- `Resource.get_full_resource_name` (resources.py:242-260) on a node and
its ancestor chain (immediate parent first).  Returns the name together
with the node and chain with updated `_full_resource_name` caches. -/
def getFRN : FNode → List FNode → String × FNode × List FNode
  | n, rstack =>
    match n.frnCache with
    | some v => (v, n, rstack)
    | none =>
      let tn := toTypeName n.rtype n.key
      if n.isRoot then
        let v := toFullResourceName "" tn
        (v, { n with frnCache := some v }, rstack)
      else
        match rstack with
        | [] =>
          let v := toFullResourceName "" tn
          (v, { n with frnCache := some v }, [])
        | p :: rest =>
          let r := getFRN p rest
          let v := toFullResourceName r.1 tn
          (v, { n with frnCache := some v }, r.2.1 :: r.2.2)

/-! ## C5 / C9 — `ResourceManagerProject` side-band fetches and predicates

The `@cached(name)` decorator (resources.py:79-118) stores the wrapped
function's result in an instance attribute and returns it on every later
call; a raising call stores nothing.  The project state below carries the
cache cells, the warning list and a counter of client invocations for each
fetch. -/

/-- A policy/info value returned by the API client (an opaque dict). -/
abbrev BVal := List (String × String)

/-- The mutable state of one `ResourceManagerProject` instance, restricted
to the fields the claims exercise.  `billingCache = none` models the
`__cached_billing_info` attribute being absent; `some v` models it holding
`v` (where `v = none` is Python `None`).  `billingFetches` and
`apisFetches` count invocations of `client.fetch_billing_project_info` and
`client.fetch_services_enabled_apis`. -/
structure Proj where
  data : List (String × String)
  billingCache : Option (Option BVal) := none
  enabledApisCache : Option (List String) := none
  enabledServiceNames : Option (List String) := none
  warnings : List String := []
  billingFetches : Nat := 0
  apisFetches : Nat := 0
deriving DecidableEq, Repr

/-- `ResourceManagerProject.enumerable` (resources.py:1045-1051):
`self['lifecycleState'] == 'ACTIVE'` (raising `KeyError` when absent). -/
def enumerableP (p : Proj) : Except PyExc Bool :=
  (getItem p.data "lifecycleState").map (· == "ACTIVE")

/-- `Resource.add_warning` (resources.py:300-306). -/
def addWarningP (w : String) (p : Proj) : Proj :=
  { p with warnings := p.warnings ++ [w] }

/-- `ResourceManagerProject.get_billing_info` under `@cached('billing_info')`
(resources.py:79-118 and 988-1009).  `client = none` models a Python `None`
client (attribute access raises, uncaught).  A `some res` client yields
`res` from `fetch_billing_project_info`; only `ApiExecutionError` and
`ResourceNotSupported` are caught, and the handler's message formatting
reads `self.key()` (= `data['projectId']`).  The wrapper caches only a
result that was actually returned. -/
def getBillingInfo (client : Option (Except PyExc BVal)) (p : Proj) :
    Except PyExc (Option BVal) × Proj :=
  match p.billingCache with
  | some v => (.ok v, p)
  | none =>
    match enumerableP p with
    | .error e => (.error e, p)
    | .ok false => (.ok (some []), { p with billingCache := some (some []) })
    | .ok true =>
      match client with
      | none =>
        (.error (.attributeError "NoneType object has no attribute fetch_billing_project_info"), p)
      | some res =>
        match getItem p.data "projectNumber" with
        | .error e => (.error e, p)
        | .ok _ =>
          match res with
          | .ok d =>
            (.ok (some d),
             { p with billingFetches := p.billingFetches + 1,
                      billingCache := some (some d) })
          | .error e =>
            if isCaughtApiErr e then
              match getItem p.data "projectId" with
              | .error e2 => (.error e2, { p with billingFetches := p.billingFetches + 1 })
              | .ok pid =>
                (.ok none,
                 { p with billingFetches := p.billingFetches + 1,
                          warnings := p.warnings ++
                            ["Could not get Billing Info for project " ++ pid ++ ": " ++ excStr e],
                          billingCache := some none })
            else (.error e, { p with billingFetches := p.billingFetches + 1 })

/-- An operation a visitor may perform on a project between billing-info
reads. -/
inductive POp where
  | getBilling
  | addWarn (w : String)

/-- Run a sequence of `get_billing_info` / `add_warning` calls on a
project. -/
def runPOps (client : Option (Except PyExc BVal)) : List POp → Proj → Proj
  | [], p => p
  | .getBilling :: ops, p => runPOps client ops (getBillingInfo client p).2
  | .addWarn w :: ops, p => runPOps client ops (addWarningP w p)

/-- `ResourceManagerProject.billing_enabled` (resources.py:1053-1063):
`get_billing_info()` truthy → its `'billingEnabled'` entry (default
`False`), else `True`.  Dict values are modelled as strings, Python `True`
as `"True"`. -/
def billingEnabled (client : Option (Except PyExc BVal)) (p : Proj) :
    Except PyExc Bool × Proj :=
  match getBillingInfo client p with
  | (.error e, p1) => (.error e, p1)
  | (.ok none, p1) => (.ok true, p1)
  | (.ok (some []), p1) => (.ok true, p1)
  | (.ok (some _), p1) =>
    match getBillingInfo client p1 with
    | (.error e, p2) => (.error e, p2)
    | (.ok v2, p2) =>
      match v2 with
      | none => (.ok false, p2)
      | some d => (.ok (d.lookup "billingEnabled" == some "True"), p2)

/-- `ResourceManagerProject.get_enabled_apis` under `@cached('enabled_apis')`
(resources.py:1011-1035).  The extraction of each service's
`config.name` is elided: the client is modelled as returning the service
names directly.  After a completed call `_enabled_service_names` holds the
(possibly empty) name set. -/
def getEnabledApis (client : Option (Except PyExc (List String))) (p : Proj) :
    Except PyExc (List String) × Proj :=
  match p.enabledApisCache with
  | some v => (.ok v, p)
  | none =>
    match enumerableP p with
    | .error e => (.error e, p)
    | .ok false =>
      (.ok [], { p with enabledServiceNames := some [], enabledApisCache := some [] })
    | .ok true =>
      match client with
      | none =>
        (.error (.attributeError "NoneType object has no attribute fetch_services_enabled_apis"), p)
      | some res =>
        match getItem p.data "projectNumber" with
        | .error e => (.error e, p)
        | .ok _ =>
          match res with
          | .ok names =>
            (.ok names,
             { p with apisFetches := p.apisFetches + 1,
                      enabledServiceNames := some names,
                      enabledApisCache := some names })
          | .error e =>
            if isCaughtApiErr e then
              match getItem p.data "projectId" with
              | .error e2 => (.error e2, { p with apisFetches := p.apisFetches + 1 })
              | .ok pid =>
                (.ok [],
                 { p with apisFetches := p.apisFetches + 1,
                          warnings := p.warnings ++
                            ["Could not get Enabled APIs for project " ++ pid ++ ": " ++ excStr e],
                          enabledServiceNames := some [],
                          enabledApisCache := some [] })
            else (.error e, { p with apisFetches := p.apisFetches + 1 })

/-- `ResourceManagerProject.is_api_enabled` (resources.py:1065-1078):
truthiness of `_enabled_service_names` (unset `None` or the empty set are
falsy) gates the membership test. -/
def isApiEnabled (p : Proj) (serviceName : String) : Bool :=
  match p.enabledServiceNames with
  | none => true
  | some l => if l.isEmpty then true else l.contains serviceName

/-! ## C6 — `BigqueryDataSet` paired policy caches (resources.py:1153-1217) -/

/-- The environment of one `BigqueryDataSet` instance: the client's
behaviour for the two fetches, the two conversion helpers from
`iam_helpers` (outside src/, kept abstract), and the key strings used in
warning messages.  The data/parent field lookups forming the API-call
arguments are elided; they do not touch the caches. -/
structure DSEnv where
  iamFetch : Except PyExc BVal
  dsFetch : Except PyExc BVal
  convToDs : BVal → BVal
  convToIam : BVal → BVal
  dsId : String
  projKey : String

/-- The cache state of one `BigqueryDataSet` instance plus per-client-method
invocation counters. -/
structure DSState where
  iamCache : Option (Option BVal) := none
  dsCache : Option (Option BVal) := none
  warnings : List String := []
  iamFetches : Nat := 0
  dsFetches : Nat := 0
deriving DecidableEq, Repr

/-- `BigqueryDataSet._set_cache` (resources.py:1156-1165): store `v` unless
the attribute already exists with a non-`None` value. -/
def setCacheCell (cell : Option (Option BVal)) (v : Option BVal) :
    Option (Option BVal) :=
  match cell with
  | some (some w) => some (some w)
  | _ => some v

/-- `BigqueryDataSet.get_iam_policy` under `@cached('iam_policy')`
(resources.py:1167-1191): on success converts the IAM policy to a dataset
policy and pre-populates the sibling cache via `_set_cache`. -/
def getIamPolicyDS (env : DSEnv) (s : DSState) :
    Except PyExc (Option BVal) × DSState :=
  match s.iamCache with
  | some v => (.ok v, s)
  | none =>
    match env.iamFetch with
    | .ok pol =>
      (.ok (some pol),
       { s with iamFetches := s.iamFetches + 1,
                dsCache := setCacheCell s.dsCache (some (env.convToDs pol)),
                iamCache := some (some pol) })
    | .error e =>
      if isCaughtApiErr e then
        (.ok none,
         { s with iamFetches := s.iamFetches + 1,
                  warnings := s.warnings ++
                    ["Could not get Dataset IAM Policy for " ++ env.dsId ++
                     " in project " ++ env.projKey ++ ": " ++ excStr e],
                  iamCache := some none })
      else (.error e, { s with iamFetches := s.iamFetches + 1 })

/-- `BigqueryDataSet.get_dataset_policy` under `@cached('dataset_policy')`
(resources.py:1193-1217), symmetric to `get_iam_policy`. -/
def getDatasetPolicyDS (env : DSEnv) (s : DSState) :
    Except PyExc (Option BVal) × DSState :=
  match s.dsCache with
  | some v => (.ok v, s)
  | none =>
    match env.dsFetch with
    | .ok pol =>
      (.ok (some pol),
       { s with dsFetches := s.dsFetches + 1,
                iamCache := setCacheCell s.iamCache (some (env.convToIam pol)),
                dsCache := some (some pol) })
    | .error e =>
      if isCaughtApiErr e then
        (.ok none,
         { s with dsFetches := s.dsFetches + 1,
                  warnings := s.warnings ++
                    ["Could not get Dataset Policy for " ++ env.dsId ++
                     " in project " ++ env.projKey ++ ": " ++ excStr e],
                  dsCache := some none })
      else (.error e, { s with dsFetches := s.dsFetches + 1 })

/-! ## The traversal engine — `Resource.accept` (resources.py:332-389)

A resource tree fixes, for one crawl, the data of each resource, its key
derivation, its `should_dispatch` policy and the behaviour of each of its
child iterators (`self._contains`): the children the iterator yields
followed by the exception, if any, the iteration then raises
(`ResourceNotSupported` is already absorbed inside the iterator classes;
anything surfacing here is what the `try`/`except` in `accept` sees). -/

/-- Key derivation regimes used by the claims:
`keyField f` is `resource_class_factory`'s `self[key_field]`
(resources.py:574-585); `nameSuffix` is the organization/folder override
`self['name'].split('/', 1)[-1]` (resources.py:760-766, 841-847). -/
inductive KeyStrategy where
  | keyField (f : String)
  | nameSuffix
deriving DecidableEq, Repr

mutual
/-- One resource: Python class name, `type()` tag, key strategy, `_data`,
`_root` flag, `should_dispatch()` value, and its child iterators. -/
inductive RTree where
  | node (cls rtype : String) (ks : KeyStrategy) (data : List (String × String))
         (isRoot : Bool) (disp : Bool) (its : IterList)
/-- The `self._contains` list: each entry is one iterator — the children it
yields, then the exception (if any) its iteration raises. -/
inductive IterList where
  | inil
  | icons (children : ChildList) (raised : Option PyExc) (rest : IterList)
/-- A list of child resources yielded by one iterator. -/
inductive ChildList where
  | cnil
  | ccons (c : RTree) (rest : ChildList)
end

/-- `Resource.key()` per key strategy. -/
def keyOf : KeyStrategy → List (String × String) → Except PyExc String
  | .keyField f, d => getItem d f
  | .nameSuffix, d => (getItem d "name").map afterFirstSlash

/-- The `should_dispatch()` flag of a resource tree node. -/
def dispatchOf : RTree → Bool
  | .node _ _ _ _ _ d _ => d

/-- The `_data` map of a resource tree node. -/
def dataOf : RTree → List (String × String)
  | .node _ _ _ d _ _ _ => d

/-- The `type()` tag of a resource tree node. -/
def rtypeOf : RTree → String
  | .node _ t _ _ _ _ _ => t

/-- A `(type, key)` pair identifying a visited resource on a stack. -/
abbrev SPair := String × String

/-- An observable event of the crawl: a delivery of a resource to the
visitor's sink (`visitor.visit`, with the parent stack the resource was
bound to), or an `on_child_error` report. -/
inductive Event where
  | visit (rtype key : String) (stack : List SPair)
  | childError (fullName msg : String)
deriving DecidableEq, Repr

/-- The visitor-side inputs of `accept`:
`excluded` is `visitor.config.variables['excluded_resources']`;
`visitExc name` is the exception `visitor.visit` raises on the resource
whose `type/key` identifier is `name` (`none` = visit returns normally). -/
structure CrawlConfig where
  excluded : List String
  visitExc : String → Option PyExc

/-- The identifier set built at resources.py:348-354: `"<type>/<key>"`,
plus `"project/<projectNumber>"` for projects (whose lookup can raise
`KeyError`). -/
def exclusionIds (rtype key : String) (data : List (String × String)) :
    Except PyExc (List String) :=
  if rtype == "project" then
    (getItem data "projectNumber").map (fun pn => [toTypeName rtype key, toTypeName rtype pn])
  else .ok [toTypeName rtype key]

/-- The context of the resource whose `accept` frame is running: used for
`__repr__`, warnings and the final `on_child_error`. -/
structure SelfCtx where
  cls : String
  rtype : String
  key : String
  data : List (String × String)
  isRoot : Bool
  stack : List SPair

/-- Insert an entry into an association list sorted by key (`<` on
strings), keeping equal keys stable. -/
def insertByKey (kv : String × String) : List (String × String) → List (String × String)
  | [] => [kv]
  | x :: xs => if x.1 < kv.1 then x :: insertByKey kv xs else kv :: x :: xs

/-- Sort an association list by key: Python's `json.dumps(..., sort_keys=True)`
key ordering. -/
def sortByKey : List (String × String) → List (String × String)
  | [] => []
  | x :: xs => insertByKey x (sortByKey xs)

/-- `json.dumps(self._data, sort_keys=True)` for a flat string map. -/
def jsonDumps (d : List (String × String)) : String :=
  "\x7b" ++
    joinWith ", "
      ((sortByKey d).map (fun kv => "\"" ++ kv.1 ++ "\": \"" ++ kv.2 ++ "\"")) ++
  "\x7d"

/-- `Resource.__repr__` (resources.py:533-544): needs `parent()`, which for
a non-root resource with an empty bound stack is `None` and makes the
attribute accesses raise. -/
def reprOfCtx (ctx : SelfCtx) : Except PyExc String :=
  let par : Except PyExc SPair :=
    if ctx.isRoot then .ok (ctx.rtype, ctx.key)
    else
      match ctx.stack.getLast? with
      | some p => .ok p
      | none => .error (.attributeError "NoneType object has no attribute type")
  par.map fun pp =>
    ctx.cls ++ "<data=\"" ++ jsonDumps ctx.data ++ "\", parent_resource_type=\"" ++
      pp.1 ++ "\", parent_resource_id=\"" ++ pp.2 ++ "\">"

/-- The warning message built at resources.py:383:
`'Exception raised processing %s: %s' % (self, e)`. -/
def errMsgOf (rep : String) (e : PyExc) : String :=
  "Exception raised processing " ++ rep ++ ": " ++ excStr e

/-- The benign-phrase allowlist `skip_errors` (resources.py:339-341). -/
def skipErrors : List String :=
  ["Not found", "Unknown project id", "scheduled for deletion"]

/-- The benign-error test at resources.py:378-380: an `ApiExecutionError`
whose string contains one of the `skip_errors` phrases. -/
def isBenign (e : PyExc) : Bool :=
  match e with
  | .apiExecutionError m => skipErrors.any (fun ph => isSubstrOf ph m)
  | _ => false

/-- `Resource.get_full_resource_name` as observed inside `accept`, where
every ancestor on the stack has already computed its own name: the pure
join of the stack's `type/key` segments and the resource's own
(resources.py:242-260 with the spec-modelled `utils.to_full_resource_name`). -/
def fullNameOf (isRoot : Bool) (stack : List SPair) (self : SPair) : String :=
  if isRoot || stack.isEmpty then toTypeName self.1 self.2
  else
    toFullResourceName
      (joinSlash (stack.map (fun p => toTypeName p.1 p.2)))
      (toTypeName self.1 self.2)

/-- `self.get_full_resource_name()` of a child inside `try_accept`'s
handler (resources.py:330): recomputes the child's key, which can raise. -/
def childFullName (c : RTree) (stack : List SPair) : Except PyExc String :=
  match c with
  | .node _ rtype ks data isRoot _ _ =>
    (keyOf ks data).map fun k => fullNameOf isRoot stack (rtype, k)

/-- Result of one `accept` call: the events it delivered, the callbacks it
submitted to the dispatch pool, the final `self._warning` list, and the
exception (if any) that propagated out of `accept`. -/
structure AOut where
  events : List Event
  spawned : List (RTree × List SPair)
  warnings : List String
  exc : Option PyExc

/-- Result of driving the `self._contains` loop (resources.py:361-385). -/
structure ItOut where
  events : List Event
  spawned : List (RTree × List SPair)
  warnings : List String
  exc : Option PyExc

/-- Result of draining one iterator's yielded children
(resources.py:364-374): the exception, if any, is one that escaped an
inline child's `try_accept` (resources.py:325-330) and aborts the
iterator. -/
structure ChOut where
  events : List Event
  spawned : List (RTree × List SPair)
  exc : Option PyExc

mutual
/-- `Resource.accept` (resources.py:332-389).  `stack` is the incoming
parent stack (as `(type, key)` pairs, root first), `w0` the warnings the
resource already carries when `accept` is entered. -/
def acceptR (cfg : CrawlConfig) (t : RTree) (stack : List SPair)
    (w0 : List String) : AOut :=
  match t with
  | .node cls rtype ks data isRoot _disp its =>
    match keyOf ks data with
    | .error e => ⟨[], [], w0, some e⟩
    | .ok key =>
      match exclusionIds rtype key data with
      | .error e => ⟨[], [], w0, some e⟩
      | .ok ids =>
        if ids.any (fun i => cfg.excluded.contains i) then ⟨[], [], w0, none⟩
        else
          match cfg.visitExc (toTypeName rtype key) with
          | some e => ⟨[.visit rtype key stack], [], w0, some e⟩
          | none =>
            let o := acceptIters cfg ⟨cls, rtype, key, data, isRoot, stack⟩ w0 its
            match o.exc with
            | some e => ⟨.visit rtype key stack :: o.events, o.spawned, o.warnings, some e⟩
            | none =>
              if o.warnings.isEmpty then
                ⟨.visit rtype key stack :: o.events, o.spawned, o.warnings, none⟩
              else
                ⟨.visit rtype key stack :: o.events ++
                   [.childError (fullNameOf isRoot stack (rtype, key))
                      (joinWith "\n" o.warnings)],
                 o.spawned, o.warnings, none⟩

/-- The loop over `self._contains` (resources.py:361-385), with its
per-iterator `try`/`except`: a benign `ApiExecutionError` is absorbed, any
other exception appends one warning built from `repr(self)` (whose own
failure propagates out of `accept`). -/
def acceptIters (cfg : CrawlConfig) (ctx : SelfCtx) (warnAcc : List String)
    (its : IterList) : ItOut :=
  match its with
  | .inil => ⟨[], [], warnAcc, none⟩
  | .icons cs raised rest =>
    let co := acceptChildren cfg ctx cs
    let iterExc : Option PyExc :=
      match co.exc with
      | some e => some e
      | none => raised
    match iterExc with
    | none =>
      let ro := acceptIters cfg ctx warnAcc rest
      ⟨co.events ++ ro.events, co.spawned ++ ro.spawned, ro.warnings, ro.exc⟩
    | some e =>
      if isBenign e then
        let ro := acceptIters cfg ctx warnAcc rest
        ⟨co.events ++ ro.events, co.spawned ++ ro.spawned, ro.warnings, ro.exc⟩
      else
        match reprOfCtx ctx with
        | .error e2 => ⟨co.events, co.spawned, warnAcc, some e2⟩
        | .ok rep =>
          let ro := acceptIters cfg ctx (warnAcc ++ [errMsgOf rep e]) rest
          ⟨co.events ++ ro.events, co.spawned ++ ro.spawned, ro.warnings, ro.exc⟩

/-- Driving one iterator's yielded children (resources.py:364-374): a
dispatchable child is submitted to the pool as a `try_accept` callback, a
non-dispatchable one runs `try_accept` inline; an exception escaping the
inline `try_accept` (only possible from `get_full_resource_name` in its
handler) aborts the remaining children of this iterator. -/
def acceptChildren (cfg : CrawlConfig) (ctx : SelfCtx) (cs : ChildList) : ChOut :=
  match cs with
  | .cnil => ⟨[], [], none⟩
  | .ccons c rest =>
    let newStack := ctx.stack ++ [(ctx.rtype, ctx.key)]
    if dispatchOf c then
      let ro := acceptChildren cfg ctx rest
      ⟨ro.events, (c, newStack) :: ro.spawned, ro.exc⟩
    else
      let ao := acceptR cfg c newStack []
      match ao.exc with
      | none =>
        let ro := acceptChildren cfg ctx rest
        ⟨ao.events ++ ro.events, ao.spawned ++ ro.spawned, ro.exc⟩
      | some e =>
        match childFullName c newStack with
        | .error e2 => ⟨ao.events, ao.spawned, some e2⟩
        | .ok fn =>
          let ro := acceptChildren cfg ctx rest
          ⟨ao.events ++ [.childError fn (excStr e)] ++ ro.events,
           ao.spawned ++ ro.spawned, ro.exc⟩
end

/-- `Resource.try_accept` (resources.py:317-330) as the dispatch pool runs
it: exceptions from `accept` are reported through `on_child_error`; an
exception from the handler itself ends the worker silently. -/
def tryAcceptTop (cfg : CrawlConfig) (tk : RTree × List SPair) :
    List Event × List (RTree × List SPair) :=
  let ao := acceptR cfg tk.1 tk.2 []
  match ao.exc with
  | none => (ao.events, ao.spawned)
  | some e =>
    match childFullName tk.1 tk.2 with
    | .ok fn => (ao.events ++ [.childError fn (excStr e)], ao.spawned)
    | .error _ => (ao.events, ao.spawned)

/-- A crawl state: the tasks pending in the dispatch pool and the trace of
events delivered so far. -/
structure SchedState where
  pending : List (RTree × List SPair)
  trace : List Event

/-- One scheduler step: the pool picks any pending callback and runs it;
its events extend the trace and the subtrees it dispatches join the
pool. -/
inductive SchedStep (cfg : CrawlConfig) : SchedState → SchedState → Prop where
  | run (pre post : List (RTree × List SPair)) (tk : RTree × List SPair)
        (tr : List Event) :
      SchedStep cfg ⟨pre ++ tk :: post, tr⟩
        ⟨pre ++ post ++ (tryAcceptTop cfg tk).2, tr ++ (tryAcceptTop cfg tk).1⟩

/-- Crawl states reachable by the pool from a given state. -/
def SchedReach (cfg : CrawlConfig) : SchedState → SchedState → Prop :=
  Relation.ReflTransGen (SchedStep cfg)

/-- The initial crawl state: the root resource about to be crawled with an
empty stack, nothing delivered yet. -/
def initSched (root : RTree) : SchedState := ⟨[(root, [])], []⟩

/-- The `(type, key)` pairs delivered to the sink by a list of events, in
order. -/
def visitsOf : List Event → List SPair
  | [] => []
  | .visit t k _ :: es => (t, k) :: visitsOf es
  | .childError _ _ :: es => visitsOf es

/-- Parent-before-child soundness of a trace: every visit's recorded
parent stack consists of resources already visited (given the visits in
`seen` happened before the trace). -/
def goodEventsB (seen : List SPair) : List Event → Bool
  | [] => true
  | .visit t k s :: es =>
    (s.all fun p => seen.contains p) && goodEventsB (seen ++ [(t, k)]) es
  | .childError _ _ :: es => goodEventsB seen es

/-- A proper ancestor chain (immediate parent first): every node except
the bottom-most (the crawl root) has `_root = False`. -/
def properChainB : List FNode → Bool
  | [] => true
  | [_] => true
  | p :: rest => !p.isRoot && properChainB rest

/-- The `self._contains` iterator list as a plain list of
(yielded children, raised exception) pairs. -/
def itersToList : IterList → List (ChildList × Option PyExc)
  | .inil => []
  | .icons cs raised rest => (cs, raised) :: itersToList rest

/-- The warnings the `self._contains` loop appends for a given iterator
list: none for a benign `ApiExecutionError`, exactly one message built
from the resource repr for any other exception. -/
def c4Warns (rep : String) (prs : List (ChildList × Option PyExc)) : List String :=
  prs.filterMap fun pr =>
    match pr.2 with
    | none => none
    | some e => if isBenign e then none else some (errMsgOf rep e)

/-- `ResourceManagerOrganization.fetch` (resources.py:660-685): fetch the
organization through `client.fetch_crm_organization`, or degrade to a
placeholder resource carrying a warning when the call fails with a caught
error class.  `client` is the behaviour of `fetch_crm_organization`;
`its` the registered child iterators of the created resource. -/
def organizationFetch (client : String → Except PyExc (List (String × String)))
    (resourceKey : String) (isRoot : Bool) (its : IterList) :
    Except PyExc (RTree × List String) :=
  match client resourceKey with
  | .ok d =>
    .ok (.node "ResourceManagerOrganization" "organization" .nameSuffix d isRoot false its, [])
  | .error e =>
    if isCaughtApiErr e then
      .ok (.node "ResourceManagerOrganization" "organization" .nameSuffix
             [("name", resourceKey)] isRoot false its,
           ["Unable to fetch Organization from API " ++ resourceKey ++ ": " ++
            excStr e ++ ", creating fake resource."])
    else .error e

/-- `ResourceManagerProject.fetch` (resources.py:916-940): the project
number is `resource_key.split('/', 1)[-1]`, passed to
`client.fetch_crm_project`; on a caught error a placeholder project with
`data = {'name': resource_key}` and one warning is returned. -/
def projectFetch (client : String → Except PyExc (List (String × String)))
    (resourceKey : String) (isRoot : Bool) (its : IterList) :
    Except PyExc (RTree × List String) :=
  match client (afterFirstSlash resourceKey) with
  | .ok d =>
    .ok (.node "ResourceManagerProject" "project" (.keyField "projectId") d isRoot true its, [])
  | .error e =>
    if isCaughtApiErr e then
      .ok (.node "ResourceManagerProject" "project" (.keyField "projectId")
             [("name", resourceKey)] isRoot true its,
           ["Unable to fetch Project from API " ++ resourceKey ++ ": " ++
            excStr e ++ ", creating fake resource."])
    else .error e

/-- `ResourceManagerFolder.fetch` (resources.py:816-839). -/
def folderFetch (client : String → Except PyExc (List (String × String)))
    (resourceKey : String) (isRoot : Bool) (its : IterList) :
    Except PyExc (RTree × List String) :=
  match client resourceKey with
  | .ok d =>
    .ok (.node "ResourceManagerFolder" "folder" .nameSuffix d isRoot true its, [])
  | .error e =>
    if isCaughtApiErr e then
      .ok (.node "ResourceManagerFolder" "folder" .nameSuffix
             [("name", resourceKey)] isRoot true its,
           ["Unable to fetch Folder from API " ++ resourceKey ++ ": " ++
            excStr e ++ ", creating fake resource."])
    else .error e

/-- `from_root_id` (resources.py:51-76): dispatch on the root-id prefix in
the `root_map` insertion order, with one client behaviour per top-level
fetch method. -/
def fromRootId (orgClient projClient folderClient :
      String → Except PyExc (List (String × String)))
    (rootId : String) (isRoot : Bool) (orgIts projIts folderIts : IterList) :
    Except PyExc (RTree × List String) :=
  if startsWithS rootId "organizations" then organizationFetch orgClient rootId isRoot orgIts
  else if startsWithS rootId "projects" then projectFetch projClient rootId isRoot projIts
  else if startsWithS rootId "folders" then folderFetch folderClient rootId isRoot folderIts
  else .error (.other "Unsupported root id, must be one of organizations,projects,folders")

/-- A crawl configuration whose visitor raises on the organization root
(used to exercise the visit-failure path): no exclusions, `visit` raises
on `organization/111` only. -/
def c3cfg : CrawlConfig :=
  ⟨[], fun n => if n == "organization/111" then some (.other "boom") else none⟩

/-- A root organization with one child project in its single iterator. -/
def c3root : RTree :=
  .node "ResourceManagerOrganization" "organization" .nameSuffix
    [("name", "organizations/111")] true false
    (.icons
      (.ccons (.node "ResourceManagerProject" "project" (.keyField "projectId")
        [("projectId", "p1"), ("projectNumber", "1"), ("lifecycleState", "ACTIVE")]
        false true .inil) .cnil)
      none .inil)

/-- Iterators exercising every error regime of the `self._contains` loop:
a benign `ApiExecutionError`, a non-benign exception after one child, and
a clean iterator — all on one organization. -/
def c4its : IterList :=
  .icons .cnil (some (.apiExecutionError "instance scheduled for deletion"))
    (.icons
      (.ccons (.node "ResourceManagerLien" "lien" (.keyField "name")
        [("name", "l1")] false false .inil) .cnil)
      (some (.other "boom"))
      (.icons
        (.ccons (.node "ResourceManagerLien" "lien" (.keyField "name")
          [("name", "l2")] false false .inil) .cnil)
        none .inil))

/-- A root organization whose `_contains` is `c4its`. -/
def c4node : RTree :=
  .node "ResourceManagerOrganization" "organization" .nameSuffix
    [("name", "organizations/111")] true false c4its

/-- The repr of `c4node` inside its `accept` frame. -/
def c4rep : String :=
  "ResourceManagerOrganization<data=\"\x7b\"name\": \"organizations/111\"\x7d\", parent_resource_type=\"organization\", parent_resource_id=\"111\">"

/-- The crawl invariant: the trace delivered so far is parent-before-child
sound, and every callback waiting in the pool has a fully-visited parent
stack. -/
def schedInv (st : SchedState) : Prop :=
  goodEventsB [] st.trace = true ∧
  ∀ pr ∈ st.pending, ∀ p ∈ pr.2, p ∈ visitsOf st.trace

/-- A benign crawl configuration: nothing excluded, `visit` never
raises. -/
def c1cfg : CrawlConfig := ⟨[], fun _ => none⟩

/-- A root organization with an inline lien child and a dispatchable
project child. -/
def c1root : RTree :=
  .node "ResourceManagerOrganization" "organization" .nameSuffix
    [("name", "organizations/111")] true false
    (.icons
      (.ccons (.node "ResourceManagerLien" "lien" (.keyField "name")
        [("name", "l1")] false false .inil)
        (.ccons (.node "ResourceManagerProject" "project" (.keyField "projectId")
          [("projectId", "p1"), ("projectNumber", "1"), ("lifecycleState", "ACTIVE")]
          false true .inil) .cnil))
      none .inil)

/-! # Theorems -/

/-! ## C10 -/

/-- C10: a `Resource` constructed with `root=False` still has its `_stack`
in the unset initial state (`None`); calling `parent()` then raises
(`TypeError`, since only `IndexError` is caught) rather than returning
`None` or `self`.  Once the stack is bound, `parent()` is its top (last)
element, or `None` when the bound stack is empty. -/
theorem c10_parent_unset_raises (l : List (String × String)) (p : String × String) :
    parentOf false initStackR =
      .error (.typeError "NoneType object is not subscriptable") ∧
    parentOf false (some []) = .ok .noneRes ∧
    parentOf false (some (l ++ [p])) = .ok (.par p) := by
  refine ⟨rfl, rfl, ?_⟩
  simp [parentOf]

/-! ## C6 -/

/-- C6: on a `BigqueryDataSet`, after either `get_iam_policy` or
`get_dataset_policy` succeeds, the other method returns the pre-populated
sibling cache entry and issues no API call; and `_set_cache` never
overwrites a sibling entry already set to a non-`None` value (the code's
own notion of "already set": `_set_cache` treats a cached `None`, the
marker of a failed fetch, as not set). -/
theorem c6_dataset_paired_cache (env : DSEnv) (s0 : DSState) (pol : BVal)
    (hiam : s0.iamCache = none) (hds : s0.dsCache = none) :
    ((env.iamFetch = .ok pol) →
      getDatasetPolicyDS env (getIamPolicyDS env s0).2 =
        (.ok (some (env.convToDs pol)), (getIamPolicyDS env s0).2) ∧
      (getIamPolicyDS env s0).2.dsFetches = s0.dsFetches) ∧
    ((env.dsFetch = .ok pol) →
      getIamPolicyDS env (getDatasetPolicyDS env s0).2 =
        (.ok (some (env.convToIam pol)), (getDatasetPolicyDS env s0).2) ∧
      (getDatasetPolicyDS env s0).2.iamFetches = s0.iamFetches) ∧
    (∀ (w : BVal) (v : Option BVal), setCacheCell (some (some w)) v = some (some w)) := by
  refine ⟨?_, ?_, fun w v => rfl⟩
  · intro hf
    simp [getIamPolicyDS, getDatasetPolicyDS, setCacheCell, hiam, hds, hf]
  · intro hf
    simp [getIamPolicyDS, getDatasetPolicyDS, setCacheCell, hiam, hds, hf]

/-- Witness for C6 at a concrete dataset state and client. -/
theorem c6_dataset_paired_cache_witness :
    let env : DSEnv :=
      ⟨.ok [("etag", "abc")], .ok [("role", "OWNER")],
       fun b => ("converted", "ds") :: b, fun b => ("converted", "iam") :: b,
       "d1", "p1"⟩
    getDatasetPolicyDS env (getIamPolicyDS env {}).2 =
      (.ok (some [("converted", "ds"), ("etag", "abc")]), (getIamPolicyDS env {}).2) := by
  intro env
  exact ((c6_dataset_paired_cache env {} [("etag", "abc")] rfl rfl).1 rfl).1

/-! ## C5 -/

/-- A billing-info call on a populated cache returns the cached value and
leaves the instance untouched (the `hasattr` fast path of `cached`). -/
theorem getBillingInfo_cacheHit (client : Option (Except PyExc BVal))
    (p : Proj) (v : Option BVal) (h : p.billingCache = some v) :
    getBillingInfo client p = (.ok v, p) := by
  simp [getBillingInfo, h]

/-- Once the billing cache is populated, no sequence of further
`get_billing_info` / `add_warning` calls changes the fetch count or the
cached value. -/
theorem runPOps_cacheStable (client : Option (Except PyExc BVal))
    (ops : List POp) :
    ∀ (p : Proj) (v : Option BVal), p.billingCache = some v →
      (runPOps client ops p).billingFetches = p.billingFetches ∧
      (runPOps client ops p).billingCache = some v := by
  induction ops with
  | nil => intro p v h; exact ⟨rfl, h⟩
  | cons op rest ih =>
    intro p v h
    cases op with
    | getBilling =>
      rw [runPOps, getBillingInfo_cacheHit client p v h]
      exact ih p v h
    | addWarn w =>
      rw [runPOps]
      have := ih (addWarningP w p) v (by simpa [addWarningP] using h)
      simpa [addWarningP] using this

/-- C5: for a project whose data carries the fields the fetch and its
error handler read (`lifecycleState = ACTIVE`, `projectNumber`,
`projectId` — all guaranteed for a project that reached `visit`), and a
client that fails only with the caught `ApiExecutionError` /
`ResourceNotSupported` classes, `client.fetch_billing_project_info` is
invoked exactly once by the first `get_billing_info` call; a second call
returns the cached result unchanged, a third call after `add_warning`
still causes no new invocation, and no interleaving of further calls ever
fetches again. -/
theorem c5_billing_fetched_once (c : Except PyExc BVal) (p0 : Proj)
    (w : String) (ops : List POp)
    (hc : p0.billingCache = none)
    (hls : p0.data.lookup "lifecycleState" = some "ACTIVE")
    (hpn : p0.data.lookup "projectNumber" = some "42")
    (hpid : p0.data.lookup "projectId" = some "p42")
    (hcc : ∀ e, c = .error e → isCaughtApiErr e = true) :
    (getBillingInfo (some c) p0).2.billingFetches = p0.billingFetches + 1 ∧
    getBillingInfo (some c) (getBillingInfo (some c) p0).2 =
      ((getBillingInfo (some c) p0).1, (getBillingInfo (some c) p0).2) ∧
    (runPOps (some c) ops
        (addWarningP w (getBillingInfo (some c) p0).2)).billingFetches =
      p0.billingFetches + 1 := by
  have hcache : ∃ v, (getBillingInfo (some c) p0).2.billingCache = some v ∧
      (getBillingInfo (some c) p0).2.billingFetches = p0.billingFetches + 1 ∧
      (getBillingInfo (some c) p0).1 = .ok v := by
    cases c with
    | ok d =>
      refine ⟨some d, ?_⟩
      simp [getBillingInfo, hc, enumerableP, getItem, Except.map, hls, hpn]
    | error e =>
      have he : isCaughtApiErr e = true := hcc e rfl
      refine ⟨none, ?_⟩
      simp [getBillingInfo, hc, enumerableP, getItem, Except.map, hls, hpn, hpid, he]
  obtain ⟨v, hv, hn, hr⟩ := hcache
  refine ⟨hn, ?_, ?_⟩
  · rw [getBillingInfo_cacheHit (some c) _ v hv, hr]
  · have hst : (addWarningP w (getBillingInfo (some c) p0).2).billingCache = some v := by
      simpa [addWarningP] using hv
    have := runPOps_cacheStable (some c) ops (addWarningP w (getBillingInfo (some c) p0).2) v hst
    rw [this.1]
    simpa [addWarningP] using hn

/-- Witness for C5 at a concrete project and failing-then-cached client. -/
theorem c5_billing_fetched_once_witness :
    let p0 : Proj := { data := [("projectId", "p42"), ("projectNumber", "42"),
                               ("lifecycleState", "ACTIVE")] }
    let c : Except PyExc BVal := .error (.apiExecutionError "backend error")
    (getBillingInfo (some c) p0).2.billingFetches = 0 + 1 ∧
    getBillingInfo (some c) (getBillingInfo (some c) p0).2 =
      ((getBillingInfo (some c) p0).1, (getBillingInfo (some c) p0).2) ∧
    (runPOps (some c) [.getBilling, .getBilling]
        (addWarningP "w" (getBillingInfo (some c) p0).2)).billingFetches = 0 + 1 := by
  intro p0 c
  exact c5_billing_fetched_once c p0 "w" [.getBilling, .getBilling]
    rfl rfl rfl rfl (by intro e he; injection he with h; rw [← h]; rfl)

/-! ## C9 -/

/-- C9: project predicates.  `enumerable()` is true exactly when
`data['lifecycleState']` is `"ACTIVE"`; `billing_enabled()` returns true
whenever the cached billing info is `None` or the empty dict (the falsy
"unknown" results cached by a failed or non-enumerable fetch);
`is_api_enabled(name)` is true for every name when the set populated by
`get_enabled_apis` is empty, and is membership in that set otherwise. -/
theorem c9_project_predicates (p q : Proj) (client : Option (Except PyExc BVal))
    (names : List String)
    (hq1 : q.enabledApisCache = none)
    (hq2 : q.data.lookup "lifecycleState" = some "ACTIVE")
    (hq3 : q.data.lookup "projectNumber" = some "42") :
    (enumerableP p = .ok true ↔ p.data.lookup "lifecycleState" = some "ACTIVE") ∧
    (p.billingCache = some none ∨ p.billingCache = some (some []) →
      billingEnabled client p = (.ok true, p)) ∧
    ((getEnabledApis (some (.ok names)) q).2.enabledServiceNames = some names ∧
     (names.isEmpty = true →
       ∀ nm, isApiEnabled (getEnabledApis (some (.ok names)) q).2 nm = true) ∧
     (names.isEmpty = false →
       ∀ nm, isApiEnabled (getEnabledApis (some (.ok names)) q).2 nm =
         names.contains nm)) := by
  have hq : (getEnabledApis (some (.ok names)) q).2.enabledServiceNames = some names := by
    simp [getEnabledApis, hq1, enumerableP, getItem, Except.map, hq2, hq3]
  refine ⟨?_, ?_, hq, ?_, ?_⟩
  · unfold enumerableP getItem
    cases h : p.data.lookup "lifecycleState" with
    | none => simp [h, Except.map]
    | some v =>
      simp only [h, Except.map]
      constructor
      · intro hv
        have : (v == "ACTIVE") = true := by
          simpa using hv
        simpa using this
      · intro hv
        have : v = "ACTIVE" := by simpa using hv
        simp [this]
  · rintro (h | h) <;>
      simp [billingEnabled, getBillingInfo_cacheHit client p _ h]
  · intro hne nm
    simp [isApiEnabled, hq, hne]
  · intro hne nm
    simp [isApiEnabled, hq, hne]

/-- Witness for C9 at concrete projects. -/
theorem c9_project_predicates_witness :
    let p : Proj := { data := [("lifecycleState", "ACTIVE")], billingCache := some none }
    let q : Proj := { data := [("projectId", "p42"), ("projectNumber", "42"),
                              ("lifecycleState", "ACTIVE")] }
    (enumerableP p = .ok true ↔ p.data.lookup "lifecycleState" = some "ACTIVE") ∧
    (p.billingCache = some none ∨ p.billingCache = some (some []) →
      billingEnabled none p = (.ok true, p)) ∧
    ((getEnabledApis (some (.ok ["compute.googleapis.com"])) q).2.enabledServiceNames =
        some ["compute.googleapis.com"] ∧
     ((["compute.googleapis.com"] : List String).isEmpty = true →
       ∀ nm, isApiEnabled (getEnabledApis (some (.ok ["compute.googleapis.com"])) q).2 nm = true) ∧
     ((["compute.googleapis.com"] : List String).isEmpty = false →
       ∀ nm, isApiEnabled (getEnabledApis (some (.ok ["compute.googleapis.com"])) q).2 nm =
         (["compute.googleapis.com"] : List String).contains nm)) := by
  intro p q
  exact c9_project_predicates p q none ["compute.googleapis.com"] rfl rfl rfl

/-! ## C8 -/

/-- `joinSlash` over a list extended on the right. -/
theorem joinSlash_append_singleton (l : List String) (x : String) :
    joinSlash (l ++ [x]) = if l.isEmpty then x else joinSlash l ++ "/" ++ x := by
  induction l with
  | nil => simp [joinSlash]
  | cons a l' ih =>
    cases l' with
    | nil => simp [joinSlash]
    | cons b l'' =>
      rw [show ((a :: b :: l'') ++ [x]) = a :: ((b :: l'') ++ [x]) from rfl,
        show joinSlash (a :: ((b :: l'') ++ [x])) =
          a ++ "/" ++ joinSlash ((b :: l'') ++ [x]) from rfl,
        ih]
      simp [joinSlash, String.append_assoc]

/-- `joinSlash` over a list extended by two elements on the right. -/
theorem joinSlash_snoc_snoc (l : List String) (x y : String) :
    joinSlash (l ++ [x, y]) = joinSlash (l ++ [x]) ++ "/" ++ y := by
  induction l with
  | nil => rfl
  | cons a l' ih =>
    cases l' with
    | nil => simp [joinSlash, String.append_assoc]
    | cons b l'' =>
      rw [show ((a :: b :: l'') ++ [x, y]) = a :: ((b :: l'') ++ [x, y]) from rfl,
        show joinSlash (a :: ((b :: l'') ++ [x, y])) =
          a ++ "/" ++ joinSlash ((b :: l'') ++ [x, y]) from rfl,
        ih,
        show ((a :: b :: l'') ++ [x]) = a :: ((b :: l'') ++ [x]) from rfl,
        show joinSlash (a :: ((b :: l'') ++ [x])) =
          a ++ "/" ++ joinSlash ((b :: l'') ++ [x]) from rfl]
      simp [String.append_assoc]

/-- A slash-join ending in a `type/key` segment is never the empty
string. -/
theorem joinSlash_segments_ne_empty (l : List String) (t k : String) :
    joinSlash (l ++ [toTypeName t k]) ≠ "" := by
  rw [joinSlash_append_singleton]
  split
  · simp [toTypeName, String.ext_iff]
  · simp [toTypeName, String.ext_iff]

/-- A `get_full_resource_name` call on a populated cache returns it and
changes nothing. -/
theorem getFRN_cached (m : FNode) (v : String) (rs : List FNode)
    (h : m.frnCache = some v) : getFRN m rs = (v, m, rs) := by
  rw [getFRN]; simp [h]

/-- The value `get_full_resource_name` computes on an uncached proper
chain: the slash-join of every ancestor's `type/key` segment, root first,
ending in the resource's own segment. -/
theorem getFRN_chain (rstack : List FNode) :
    ∀ n : FNode, n.frnCache = none → n.isRoot = false →
      (∀ q ∈ rstack, q.frnCache = none) →
      properChainB rstack = true →
      (getFRN n rstack).1 =
        joinSlash ((rstack.reverse.map fun q => toTypeName q.rtype q.key) ++
          [toTypeName n.rtype n.key]) := by
  induction rstack with
  | nil =>
    intro n h1 h2 _ _
    rw [getFRN]
    simp [h1, h2, toFullResourceName, joinSlash]
  | cons p rest ih =>
    intro n h1 h2 h3 h4
    have hp1 : p.frnCache = none := h3 p (by simp)
    have hrfst : (getFRN p rest).1 =
        joinSlash ((rest.reverse.map fun q => toTypeName q.rtype q.key) ++
          [toTypeName p.rtype p.key]) := by
      cases rest with
      | nil =>
        cases hpr : p.isRoot <;> (rw [getFRN]; simp [hp1, hpr, toFullResourceName, joinSlash])
      | cons b rest' =>
        have h4' : p.isRoot = false ∧ properChainB (b :: rest') = true := by
          have := h4
          rw [show properChainB (p :: b :: rest') =
            (!p.isRoot && properChainB (b :: rest')) from rfl] at this
          simpa using this
        exact ih p hp1 h4'.1 (fun q hq => h3 q (List.mem_cons_of_mem p hq)) h4'.2
    have hne : (getFRN p rest).1 ≠ "" := by
      rw [hrfst]; exact joinSlash_segments_ne_empty _ _ _
    calc (getFRN n (p :: rest)).1
        = toFullResourceName (getFRN p rest).1 (toTypeName n.rtype n.key) := by
          rw [getFRN]; simp [h1, h2]
      _ = (getFRN p rest).1 ++ "/" ++ toTypeName n.rtype n.key := by
          simp [toFullResourceName, hne]
      _ = joinSlash (((p :: rest).reverse.map fun q => toTypeName q.rtype q.key) ++
            [toTypeName n.rtype n.key]) := by
          have hmap : (((p :: rest).reverse.map fun q => toTypeName q.rtype q.key) ++
              [toTypeName n.rtype n.key]) =
              (rest.reverse.map fun q => toTypeName q.rtype q.key) ++
                [toTypeName p.rtype p.key, toTypeName n.rtype n.key] := by
            simp
          rw [hmap, joinSlash_snoc_snoc, ← hrfst]

/-- C8: for a resource whose ancestors (immediate parent first) form an
uncached proper chain — only the bottom-most ancestor may be the crawl
root — `get_full_resource_name` returns the slash-joined `type/key`
segments from the root down to the resource itself; a lone root
resource\'s name is its own `type/key` segment (its parent contributes the
empty prefix); and the value is cached on first computation, so a repeated
call returns the same value and changes nothing. -/
theorem c8_full_resource_name (n : FNode) (rstack : List FNode)
    (h1 : n.frnCache = none) (h2 : n.isRoot = false)
    (h3 : ∀ q ∈ rstack, q.frnCache = none)
    (h4 : properChainB rstack = true) :
    (getFRN n rstack).1 =
      joinSlash ((rstack.reverse.map fun q => toTypeName q.rtype q.key) ++
        [toTypeName n.rtype n.key]) ∧
    (∀ m : FNode, m.frnCache = none → m.isRoot = true →
      ∀ rs : List FNode, (getFRN m rs).1 = toTypeName m.rtype m.key) ∧
    (∀ (m : FNode) (rs : List FNode),
      getFRN (getFRN m rs).2.1 (getFRN m rs).2.2 = getFRN m rs) := by
  refine ⟨getFRN_chain rstack n h1 h2 h3 h4, ?_, ?_⟩
  · intro m hm1 hm2 rs
    rw [getFRN]
    simp [hm1, hm2, toFullResourceName]
  · intro m rs
    have hcache : (getFRN m rs).2.1.frnCache = some (getFRN m rs).1 := by
      rw [getFRN]
      cases hm : m.frnCache with
      | some v => simpa using hm
      | none =>
        cases hr : m.isRoot with
        | true => simp [hr]
        | false => cases rs <;> simp [hr]
    rw [getFRN_cached ((getFRN m rs).2.1) ((getFRN m rs).1) ((getFRN m rs).2.2) hcache]

/-- Witness for C8 on the chain organization/111 → project/p1. -/
theorem c8_full_resource_name_witness :
    (getFRN ⟨"project", "p1", false, none⟩ [⟨"organization", "111", true, none⟩]).1 =
      joinSlash (([⟨"organization", "111", true, none⟩] :
          List FNode).reverse.map (fun q => toTypeName q.rtype q.key) ++
        [toTypeName "project" "p1"]) := by
  exact (c8_full_resource_name ⟨"project", "p1", false, none⟩
    [⟨"organization", "111", true, none⟩] rfl rfl
    (by intro q hq; simp at hq; subst hq; rfl) rfl).1

/-! ## C2 -/

/-- C2: when a resource's identifier set (its `"<type>/<key>"`, plus
`"project/<projectNumber>"` for projects) meets the configured
`excluded_resources`, `accept` returns immediately: it delivers nothing to
the sink (no `visit`, no `on_child_error`), dispatches nothing, and never
instantiates a child iterator — so neither the resource nor any descendant
is delivered. -/
theorem c2_excluded_resource_skipped (cfg : CrawlConfig) (cls rtype : String)
    (ks : KeyStrategy) (data : List (String × String)) (isRoot disp : Bool)
    (its : IterList) (stack : List SPair) (w0 : List String) (k : String)
    (ids : List String)
    (hk : keyOf ks data = .ok k)
    (hid : exclusionIds rtype k data = .ok ids)
    (hex : ids.any (fun i => cfg.excluded.contains i) = true) :
    acceptR cfg (.node cls rtype ks data isRoot disp its) stack w0 =
      ⟨[], [], w0, none⟩ := by
  rw [acceptR]
  simp only [hk, hid, hex]
  simp

/-- Witness for C2: the spec's S3 project excluded by
`"project/42"` (its projectNumber), carrying a child instance that is
consequently never visited. -/
theorem c2_excluded_resource_skipped_witness :
    acceptR ⟨["project/42"], fun _ => none⟩
      (.node "ResourceManagerProject" "project" (.keyField "projectId")
        [("projectId", "p42"), ("projectNumber", "42"), ("lifecycleState", "ACTIVE")]
        false true
        (.icons (.ccons (.node "ComputeInstance" "instance" (.keyField "id")
          [("id", "i1")] false false .inil) .cnil) none .inil))
      [("organization", "111")] [] = ⟨[], [], [], none⟩ := by
  exact c2_excluded_resource_skipped _ _ _ _ _ _ _ _ _ _ "p42"
    ["project/p42", "project/42"] rfl rfl (by decide)

/-! ## C3 -/

/-- Counterexample to C3 as stated: on a root organization whose
`visitor.visit` raises, `accept` propagates the exception but delivers no
child event and dispatches no child subtree, even though `c3root` carries
a child project in its iterator — the engine does not attempt the
descendants. -/
theorem c3_visit_raise_counterexample :
    acceptR c3cfg c3root [] [] =
      ⟨[.visit "organization" "111" []], [], [], some (.other "boom")⟩ ∧
    (acceptR c3cfg c3root [] []).spawned = [] := by
  exact ⟨rfl, rfl⟩

/-- C3 (amended): if `visitor.visit(self)` raises during `accept`, the
exception propagates out of `accept`, and the resource's descendants are
not attempted — no child iterator is instantiated, no descendant is
visited or dispatched (the failure is reported by the parent's
`try_accept` through `on_child_error`). -/
theorem c3_visit_raise_propagates (cfg : CrawlConfig) (cls rtype : String)
    (ks : KeyStrategy) (data : List (String × String)) (isRoot disp : Bool)
    (its : IterList) (stack : List SPair) (w0 : List String) (k : String)
    (ids : List String) (e : PyExc)
    (hk : keyOf ks data = .ok k)
    (hid : exclusionIds rtype k data = .ok ids)
    (hex : ids.any (fun i => cfg.excluded.contains i) = false)
    (hv : cfg.visitExc (toTypeName rtype k) = some e) :
    acceptR cfg (.node cls rtype ks data isRoot disp its) stack w0 =
      ⟨[.visit rtype k stack], [], w0, some e⟩ := by
  rw [acceptR]
  simp only [hk, hid, hex, hv]
  simp

/-- Witness for the amended C3 at the concrete raising visitor. -/
theorem c3_visit_raise_propagates_witness :
    acceptR c3cfg c3root [] [] =
      ⟨[.visit "organization" "111" []], [], [], some (.other "boom")⟩ := by
  exact c3_visit_raise_propagates c3cfg _ _ _ _ _ _ _ [] [] "111"
    ["organization/111"] (.other "boom") rfl rfl (by decide) rfl

/-! ## C7 -/

/-- C7: `from_root_id` on `"projects/bad"` with `fetch_crm_project`
raising `ApiExecutionError("Not found")` produces a placeholder project
with `data = {'name': 'projects/bad'}` and exactly one warning beginning
with `"Unable to fetch Project from API"` — but, contrary to the claim's
last part, driving `accept` on that placeholder raises
`KeyError('projectId')` from the exclusion-check's `self.key()`
(resources.py:349) for every configuration, stack and warning state,
delivering nothing. -/
theorem c7_degraded_project_root :
    fromRootId (fun _ => .error (.apiExecutionError "Not found"))
        (fun _ => .error (.apiExecutionError "Not found"))
        (fun _ => .error (.apiExecutionError "Not found"))
        "projects/bad" true .inil .inil .inil =
      .ok (.node "ResourceManagerProject" "project" (.keyField "projectId")
             [("name", "projects/bad")] true true .inil,
           ["Unable to fetch Project from API projects/bad: Not found, creating fake resource."]) ∧
    startsWithS
      "Unable to fetch Project from API projects/bad: Not found, creating fake resource."
      "Unable to fetch Project from API" = true ∧
    (∀ (cfg : CrawlConfig) (stack : List SPair) (w0 : List String),
      acceptR cfg
        (.node "ResourceManagerProject" "project" (.keyField "projectId")
          [("name", "projects/bad")] true true .inil) stack w0 =
        ⟨[], [], w0, some (.keyError "projectId")⟩) := by
  refine ⟨rfl, by decide, ?_⟩
  intro cfg stack w0
  rfl

/-! ## C4 -/

/-- A pattern is a leading segment of itself followed by anything. -/
theorem charsHasPre_self_append (p t : List Char) : charsHasPre p (p ++ t) = true := by
  induction p with
  | nil => rfl
  | cons a ps ih => simp [charsHasPre, ih]

/-- Substring containment is stable under prepending. -/
theorem charsHasSub_append_left (pat l a : List Char)
    (h : charsHasSub pat l = true) : charsHasSub pat (a ++ l) = true := by
  induction a with
  | nil => simpa using h
  | cons x a' ih => simp [charsHasSub, ih]

/-- A pattern occurs in itself followed by anything. -/
theorem charsHasSub_self_append (pat t : List Char) :
    charsHasSub pat (pat ++ t) = true := by
  cases pat with
  | nil => cases t <;> simp [charsHasSub, charsHasPre]
  | cons a ps => simp [charsHasSub, charsHasPre, charsHasPre_self_append]

/-- The warning message built by the iteration error handler contains the
resource repr as a substring. -/
theorem isSubstrOf_errMsg (rep : String) (e : PyExc) :
    isSubstrOf rep (errMsgOf rep e) = true := by
  unfold isSubstrOf errMsgOf
  have h : ("Exception raised processing " ++ rep ++ ": " ++ excStr e).toList =
      "Exception raised processing ".toList ++
        (rep.toList ++ (": " ++ excStr e).toList) := by
    simp [String.toList]
  rw [h]
  exact charsHasSub_append_left _ _ _ (charsHasSub_self_append _ _)

/-- Every warning the `self._contains` loop appends is an error-handler
message built from the resource repr. -/
theorem c4Warns_mem (rep : String) (prs : List (ChildList × Option PyExc))
    (w : String) (h : w ∈ c4Warns rep prs) : ∃ e, w = errMsgOf rep e := by
  unfold c4Warns at h
  rw [List.mem_filterMap] at h
  obtain ⟨pr, _, h2⟩ := h
  cases hp : pr.2 with
  | none => rw [hp] at h2; simp at h2
  | some e =>
    rw [hp] at h2
    by_cases hb : isBenign e = true
    · simp [hb] at h2
    · simp only [Bool.not_eq_true] at hb
      simp only [hb, Bool.false_eq_true, if_false, Option.some.injEq] at h2
      exact ⟨e, h2.symm⟩

/-- Closed form of the `self._contains` loop when the visit succeeded and
no inline child escapes its `try_accept`: every iterator's children are
driven in order (their events and dispatches concatenate), and the
warnings appended are exactly one handler message per non-benign iterator
exception, none for benign ones. -/
theorem acceptIters_char (cfg : CrawlConfig) (ctx : SelfCtx) (rep : String)
    (hr : reprOfCtx ctx = .ok rep) :
    ∀ (its : IterList) (warnAcc : List String),
      (∀ pr ∈ itersToList its, (acceptChildren cfg ctx pr.1).exc = none) →
      acceptIters cfg ctx warnAcc its =
        ⟨(itersToList its).flatMap (fun pr => (acceptChildren cfg ctx pr.1).events),
         (itersToList its).flatMap (fun pr => (acceptChildren cfg ctx pr.1).spawned),
         warnAcc ++ c4Warns rep (itersToList its),
         none⟩
  | .inil, warnAcc, _ => by
    rw [acceptIters]
    simp [itersToList, c4Warns]
  | .icons cs raised rest, warnAcc, h => by
    have hc : (acceptChildren cfg ctx cs).exc = none :=
      h (cs, raised) (by simp [itersToList])
    have hrest : ∀ w : List String,
        acceptIters cfg ctx w rest =
          ⟨(itersToList rest).flatMap (fun pr => (acceptChildren cfg ctx pr.1).events),
           (itersToList rest).flatMap (fun pr => (acceptChildren cfg ctx pr.1).spawned),
           w ++ c4Warns rep (itersToList rest),
           none⟩ :=
      fun w => acceptIters_char cfg ctx rep hr rest w
        (fun pr hpr => h pr (by simp [itersToList]; right; exact hpr))
    rw [acceptIters]
    simp only [hc]
    cases raised with
    | none =>
      rw [hrest warnAcc]
      simp [itersToList, c4Warns]
    | some e =>
      cases hb : isBenign e with
      | true =>
        rw [hrest warnAcc]
        simp [itersToList, c4Warns, hb]
      | false =>
        simp only [hb, hr]
        rw [hrest (warnAcc ++ [errMsgOf rep e])]
        simp [itersToList, c4Warns, hb]

/-- C4: during child iteration in `accept` (visit succeeded, no inline
child escaped): the resource's final warnings are its initial ones plus
exactly one handler message per non-benign iterator exception — a benign
`ApiExecutionError` contributes none — where every appended warning
contains the resource repr; and the sink receives the visit followed by
every iterator's children events in order (iterators after a failing one
still run), with the accumulated warnings flushed through one final
`on_child_error`. -/
theorem c4_iterator_errors (cfg : CrawlConfig) (cls rtype : String)
    (ks : KeyStrategy) (data : List (String × String)) (isRoot disp : Bool)
    (its : IterList) (stack : List SPair) (w0 : List String) (k : String)
    (ids : List String) (rep : String)
    (hk : keyOf ks data = .ok k)
    (hid : exclusionIds rtype k data = .ok ids)
    (hex : ids.any (fun i => cfg.excluded.contains i) = false)
    (hv : cfg.visitExc (toTypeName rtype k) = none)
    (hr : reprOfCtx ⟨cls, rtype, k, data, isRoot, stack⟩ = .ok rep)
    (hch : ∀ pr ∈ itersToList its,
      (acceptChildren cfg ⟨cls, rtype, k, data, isRoot, stack⟩ pr.1).exc = none) :
    (acceptR cfg (.node cls rtype ks data isRoot disp its) stack w0).warnings =
      w0 ++ c4Warns rep (itersToList its) ∧
    (∀ w ∈ c4Warns rep (itersToList its), isSubstrOf rep w = true) ∧
    (acceptR cfg (.node cls rtype ks data isRoot disp its) stack w0).events =
      .visit rtype k stack ::
        ((itersToList its).flatMap
          (fun pr => (acceptChildren cfg ⟨cls, rtype, k, data, isRoot, stack⟩ pr.1).events) ++
         (if (w0 ++ c4Warns rep (itersToList its)).isEmpty then []
          else [.childError (fullNameOf isRoot stack (rtype, k))
                  (joinWith "\n" (w0 ++ c4Warns rep (itersToList its)))])) := by
  have hit := acceptIters_char cfg ⟨cls, rtype, k, data, isRoot, stack⟩ rep hr its w0 hch
  refine ⟨?_, ?_, ?_⟩
  · rw [acceptR]
    simp only [hk, hid]
    rw [if_neg (by simp only [hex]; exact Bool.false_ne_true)]
    simp only [hv, hit]
    split <;> rfl
  · intro w hw
    obtain ⟨e, he⟩ := c4Warns_mem rep (itersToList its) w hw
    rw [he]
    exact isSubstrOf_errMsg rep e
  · rw [acceptR]
    simp only [hk, hid]
    rw [if_neg (by simp only [hex]; exact Bool.false_ne_true)]
    simp only [hv, hit]
    split <;> rename_i hE <;> simp [hE]

/-- Witness for C4 on `c4node`: a benign iterator error, a non-benign one
and a clean iterator. -/
theorem c4_iterator_errors_witness :
    (acceptR ⟨[], fun _ => none⟩ c4node [] []).warnings =
      [] ++ c4Warns c4rep (itersToList c4its) ∧
    (∀ w ∈ c4Warns c4rep (itersToList c4its), isSubstrOf c4rep w = true) ∧
    (acceptR ⟨[], fun _ => none⟩ c4node [] []).events =
      .visit "organization" "111" [] ::
        ((itersToList c4its).flatMap
          (fun pr => (acceptChildren ⟨[], fun _ => none⟩
            ⟨"ResourceManagerOrganization", "organization", "111",
             [("name", "organizations/111")], true, []⟩ pr.1).events) ++
         (if ([] ++ c4Warns c4rep (itersToList c4its)).isEmpty then []
          else [.childError (fullNameOf true [] ("organization", "111"))
                  (joinWith "\n" ([] ++ c4Warns c4rep (itersToList c4its)))])) := by
  exact c4_iterator_errors ⟨[], fun _ => none⟩ "ResourceManagerOrganization"
    "organization" .nameSuffix [("name", "organizations/111")] true false
    c4its [] [] "111" ["organization/111"] c4rep rfl rfl (by decide) rfl rfl
    (by decide)

/-! ## C1 -/

/-- `visitsOf` distributes over trace concatenation. -/
theorem visitsOf_append (a b : List Event) :
    visitsOf (a ++ b) = visitsOf a ++ visitsOf b := by
  induction a with
  | nil => rfl
  | cons e rest ih => cases e <;> simp [visitsOf, ih]

/-- `goodEventsB` over a concatenated trace: the first part must be good,
and the second part good once the first part's visits are seen. -/
theorem goodEventsB_append (es1 : List Event) :
    ∀ (es2 : List Event) (seen : List SPair),
      goodEventsB seen (es1 ++ es2) =
        (goodEventsB seen es1 && goodEventsB (seen ++ visitsOf es1) es2) := by
  induction es1 with
  | nil => intro es2 seen; simp [goodEventsB, visitsOf]
  | cons e rest ih =>
    intro es2 seen
    cases e with
    | visit t k st =>
      simp only [List.cons_append, List.append_eq, goodEventsB, visitsOf, ih,
        Bool.and_assoc, List.append_assoc, List.singleton_append, List.nil_append]
    | childError f m =>
      simp only [List.cons_append, List.append_eq, goodEventsB, visitsOf, ih]

/-- An appended `on_child_error` report never affects trace soundness. -/
theorem goodEventsB_ce_append (seen : List SPair) (es : List Event) (f m : String) :
    goodEventsB seen (es ++ [.childError f m]) = goodEventsB seen es := by
  rw [goodEventsB_append]
  simp [goodEventsB]

/-- An appended `on_child_error` report delivers no visit. -/
theorem visitsOf_ce_append (es : List Event) (f m : String) :
    visitsOf (es ++ [.childError f m]) = visitsOf es := by
  rw [visitsOf_append]
  simp [visitsOf]

/-- Membership hypothesis to the boolean `all`/`contains` form used by
`goodEventsB`. -/
theorem allContainsOf (seen s : List SPair) (h : ∀ p ∈ s, p ∈ seen) :
    (s.all fun p => seen.contains p) = true := by
  rw [List.all_eq_true]
  intro p hp
  exact List.elem_eq_true_of_mem (h p hp)

/-- Glue two event/spawn blocks: the second block was produced after the
first one's visits landed in the trace. -/
theorem goodAssemble (seen : List SPair) (es1 es2 : List Event)
    (sp1 sp2 : List (RTree × List SPair))
    (h1 : goodEventsB seen es1 = true)
    (hsp1 : ∀ pr ∈ sp1, ∀ p ∈ pr.2, p ∈ seen ++ visitsOf es1)
    (h2 : goodEventsB (seen ++ visitsOf es1) es2 = true)
    (hsp2 : ∀ pr ∈ sp2, ∀ p ∈ pr.2, p ∈ (seen ++ visitsOf es1) ++ visitsOf es2) :
    goodEventsB seen (es1 ++ es2) = true ∧
    (∀ pr ∈ sp1 ++ sp2, ∀ p ∈ pr.2, p ∈ seen ++ visitsOf (es1 ++ es2)) := by
  constructor
  · rw [goodEventsB_append, h1, h2]
    rfl
  · intro pr hpr p hp
    rw [visitsOf_append, ← List.append_assoc]
    rcases List.mem_append.mp hpr with h | h
    · exact List.mem_append_left _ (hsp1 pr h p hp)
    · exact hsp2 pr h p hp

/-- Prepend the visit of the resource itself: its stack is already seen,
and everything after it may additionally rely on it. -/
theorem goodVisitHead (seen : List SPair) (rtype k : String) (stack : List SPair)
    (es : List Event) (sp : List (RTree × List SPair))
    (hs : ∀ p ∈ stack, p ∈ seen)
    (h : goodEventsB (seen ++ [(rtype, k)]) es = true)
    (hsp : ∀ pr ∈ sp, ∀ p ∈ pr.2, p ∈ (seen ++ [(rtype, k)]) ++ visitsOf es) :
    goodEventsB seen (.visit rtype k stack :: es) = true ∧
    (∀ pr ∈ sp, ∀ p ∈ pr.2, p ∈ seen ++ visitsOf (.visit rtype k stack :: es)) := by
  constructor
  · rw [goodEventsB, allContainsOf seen stack hs, h]
    rfl
  · intro pr hpr p hp
    rw [show visitsOf (Event.visit rtype k stack :: es) = (rtype, k) :: visitsOf es
      from rfl, List.append_cons]
    exact hsp pr hpr p hp

mutual
/-- Every visit `accept` delivers names only already-visited parents
(relative to the visits in `seen`), and every callback it dispatches
carries a stack visited by the time the whole call's events landed. -/
theorem acceptR_good (cfg : CrawlConfig) :
    ∀ (t : RTree) (stack : List SPair) (w0 : List String) (seen : List SPair),
      (∀ p ∈ stack, p ∈ seen) →
      goodEventsB seen (acceptR cfg t stack w0).events = true ∧
      (∀ pr ∈ (acceptR cfg t stack w0).spawned, ∀ p ∈ pr.2,
        p ∈ seen ++ visitsOf (acceptR cfg t stack w0).events)
  | .node cls rtype ks data isRoot disp its, stack, w0, seen, hs => by
    rw [acceptR]
    cases hk : keyOf ks data with
    | error e => exact ⟨rfl, by simp⟩
    | ok k =>
      dsimp only
      cases hid : exclusionIds rtype k data with
      | error e => exact ⟨rfl, by simp⟩
      | ok ids =>
        dsimp only
        cases hexc : (ids.any fun i => cfg.excluded.contains i) with
        | true =>
          rw [if_pos rfl]
          exact ⟨rfl, by simp⟩
        | false =>
          rw [if_neg Bool.false_ne_true]
          cases hv : cfg.visitExc (toTypeName rtype k) with
          | some e =>
            refine ⟨?_, by simp⟩
            rw [goodEventsB, allContainsOf seen stack hs]
            rfl
          | none =>
            dsimp only
            have hstk : ∀ p ∈ (⟨cls, rtype, k, data, isRoot, stack⟩ : SelfCtx).stack ++
                [((⟨cls, rtype, k, data, isRoot, stack⟩ : SelfCtx).rtype,
                  (⟨cls, rtype, k, data, isRoot, stack⟩ : SelfCtx).key)],
                p ∈ seen ++ [(rtype, k)] := by
              intro p hp
              rcases List.mem_append.mp hp with h | h
              · exact List.mem_append_left _ (hs p h)
              · exact List.mem_append_right _ h
            obtain ⟨hg, hsp⟩ := acceptIters_good cfg ⟨cls, rtype, k, data, isRoot, stack⟩
              w0 its (seen ++ [(rtype, k)]) hstk
            cases ho : (acceptIters cfg ⟨cls, rtype, k, data, isRoot, stack⟩ w0 its).exc with
            | some e =>
              exact goodVisitHead seen rtype k stack _ _ hs hg hsp
            | none =>
              cases hw : (acceptIters cfg ⟨cls, rtype, k, data, isRoot, stack⟩ w0 its).warnings.isEmpty with
              | true =>
                rw [if_pos rfl]
                exact goodVisitHead seen rtype k stack _ _ hs hg hsp
              | false =>
                rw [if_neg Bool.false_ne_true]
                have hg2 : goodEventsB (seen ++ [(rtype, k)])
                    ((acceptIters cfg ⟨cls, rtype, k, data, isRoot, stack⟩ w0 its).events ++
                      [.childError (fullNameOf isRoot stack (rtype, k))
                        (joinWith "\n" (acceptIters cfg ⟨cls, rtype, k, data, isRoot, stack⟩ w0 its).warnings)]) = true := by
                  rw [goodEventsB_ce_append]
                  exact hg
                have hsp2 : ∀ pr ∈ (acceptIters cfg ⟨cls, rtype, k, data, isRoot, stack⟩ w0 its).spawned,
                    ∀ p ∈ pr.2, p ∈ (seen ++ [(rtype, k)]) ++
                      visitsOf ((acceptIters cfg ⟨cls, rtype, k, data, isRoot, stack⟩ w0 its).events ++
                        [.childError (fullNameOf isRoot stack (rtype, k))
                          (joinWith "\n" (acceptIters cfg ⟨cls, rtype, k, data, isRoot, stack⟩ w0 its).warnings)]) := by
                  intro pr hpr p hp
                  rw [visitsOf_ce_append]
                  exact hsp pr hpr p hp
                exact goodVisitHead seen rtype k stack _ _ hs hg2 hsp2

/-- `acceptIters` analogue of `acceptR_good`: the resource itself (top of
every child stack) is already among the seen visits. -/
theorem acceptIters_good (cfg : CrawlConfig) :
    ∀ (ctx : SelfCtx) (warnAcc : List String) (its : IterList) (seen : List SPair),
      (∀ p ∈ ctx.stack ++ [(ctx.rtype, ctx.key)], p ∈ seen) →
      goodEventsB seen (acceptIters cfg ctx warnAcc its).events = true ∧
      (∀ pr ∈ (acceptIters cfg ctx warnAcc its).spawned, ∀ p ∈ pr.2,
        p ∈ seen ++ visitsOf (acceptIters cfg ctx warnAcc its).events)
  | ctx, warnAcc, .inil, seen, _ => by
    rw [acceptIters]
    exact ⟨rfl, by simp⟩
  | ctx, warnAcc, .icons cs raised rest, seen, hs => by
    obtain ⟨hg1, hsp1⟩ := acceptChildren_good cfg ctx cs seen hs
    have hrec : ∀ w : List String,
        goodEventsB seen ((acceptChildren cfg ctx cs).events ++
          (acceptIters cfg ctx w rest).events) = true ∧
        (∀ pr ∈ (acceptChildren cfg ctx cs).spawned ++
            (acceptIters cfg ctx w rest).spawned, ∀ p ∈ pr.2,
          p ∈ seen ++ visitsOf ((acceptChildren cfg ctx cs).events ++
            (acceptIters cfg ctx w rest).events)) := by
      intro w
      obtain ⟨hg2, hsp2⟩ := acceptIters_good cfg ctx w rest
        (seen ++ visitsOf (acceptChildren cfg ctx cs).events)
        (fun p hp => List.mem_append_left _ (hs p hp))
      exact goodAssemble seen _ _ _ _ hg1 hsp1 hg2 hsp2
    rw [acceptIters]
    dsimp only
    cases hce : (acceptChildren cfg ctx cs).exc with
    | some e =>
      dsimp only
      cases hb : isBenign e with
      | true =>
        rw [if_pos rfl]
        exact hrec warnAcc
      | false =>
        rw [if_neg Bool.false_ne_true]
        cases hrep : reprOfCtx ctx with
        | error e2 => exact ⟨hg1, hsp1⟩
        | ok rep => exact hrec (warnAcc ++ [errMsgOf rep e])
    | none =>
      dsimp only
      cases raised with
      | none => exact hrec warnAcc
      | some e =>
        dsimp only
        cases hb : isBenign e with
        | true =>
          rw [if_pos rfl]
          exact hrec warnAcc
        | false =>
          rw [if_neg Bool.false_ne_true]
          cases hrep : reprOfCtx ctx with
          | error e2 => exact ⟨hg1, hsp1⟩
          | ok rep => exact hrec (warnAcc ++ [errMsgOf rep e])

/-- `acceptChildren` analogue of `acceptR_good`. -/
theorem acceptChildren_good (cfg : CrawlConfig) :
    ∀ (ctx : SelfCtx) (cs : ChildList) (seen : List SPair),
      (∀ p ∈ ctx.stack ++ [(ctx.rtype, ctx.key)], p ∈ seen) →
      goodEventsB seen (acceptChildren cfg ctx cs).events = true ∧
      (∀ pr ∈ (acceptChildren cfg ctx cs).spawned, ∀ p ∈ pr.2,
        p ∈ seen ++ visitsOf (acceptChildren cfg ctx cs).events)
  | ctx, .cnil, seen, _ => by
    rw [acceptChildren]
    exact ⟨rfl, by simp⟩
  | ctx, .ccons c crest, seen, hs => by
    rw [acceptChildren]
    dsimp only
    cases hd : dispatchOf c with
    | true =>
      rw [if_pos rfl]
      obtain ⟨hg2, hsp2⟩ := acceptChildren_good cfg ctx crest seen hs
      refine ⟨hg2, ?_⟩
      intro pr hpr p hp
      rcases List.mem_cons.mp hpr with h | h
      · subst h
        exact List.mem_append_left _ (hs p hp)
      · exact hsp2 pr h p hp
    | false =>
      rw [if_neg Bool.false_ne_true]
      obtain ⟨hg1, hsp1⟩ := acceptR_good cfg c (ctx.stack ++ [(ctx.rtype, ctx.key)]) [] seen hs
      have hrec : goodEventsB seen
            ((acceptR cfg c (ctx.stack ++ [(ctx.rtype, ctx.key)]) []).events ++
              (acceptChildren cfg ctx crest).events) = true ∧
          (∀ pr ∈ (acceptR cfg c (ctx.stack ++ [(ctx.rtype, ctx.key)]) []).spawned ++
              (acceptChildren cfg ctx crest).spawned, ∀ p ∈ pr.2,
            p ∈ seen ++ visitsOf
              ((acceptR cfg c (ctx.stack ++ [(ctx.rtype, ctx.key)]) []).events ++
                (acceptChildren cfg ctx crest).events)) := by
        obtain ⟨hg2, hsp2⟩ := acceptChildren_good cfg ctx crest
          (seen ++ visitsOf (acceptR cfg c (ctx.stack ++ [(ctx.rtype, ctx.key)]) []).events)
          (fun p hp => List.mem_append_left _ (hs p hp))
        exact goodAssemble seen _ _ _ _ hg1 hsp1 hg2 hsp2
      cases hae : (acceptR cfg c (ctx.stack ++ [(ctx.rtype, ctx.key)]) []).exc with
      | none => exact hrec
      | some e =>
        dsimp only
        cases hfn : childFullName c (ctx.stack ++ [(ctx.rtype, ctx.key)]) with
        | error e2 => exact ⟨hg1, hsp1⟩
        | ok fn =>
          obtain ⟨hg2, hsp2⟩ := acceptChildren_good cfg ctx crest
            (seen ++ visitsOf ((acceptR cfg c (ctx.stack ++ [(ctx.rtype, ctx.key)]) []).events ++
              [.childError fn (excStr e)]))
            (fun p hp => List.mem_append_left _ (hs p hp))
          have hg1' : goodEventsB seen
              ((acceptR cfg c (ctx.stack ++ [(ctx.rtype, ctx.key)]) []).events ++
                [.childError fn (excStr e)]) = true := by
            rw [goodEventsB_ce_append]
            exact hg1
          have hsp1' : ∀ pr ∈ (acceptR cfg c (ctx.stack ++ [(ctx.rtype, ctx.key)]) []).spawned,
              ∀ p ∈ pr.2, p ∈ seen ++ visitsOf
                ((acceptR cfg c (ctx.stack ++ [(ctx.rtype, ctx.key)]) []).events ++
                  [.childError fn (excStr e)]) := by
            intro pr hpr p hp
            rw [visitsOf_ce_append]
            exact hsp1 pr hpr p hp
          exact goodAssemble seen _ _ _ _ hg1' hsp1' hg2 hsp2
end

/-- `try_accept` adds at most an `on_child_error` report to `accept`'s
events, so it delivers the same visits with the same soundness. -/
theorem tryAcceptTop_good (cfg : CrawlConfig) (tk : RTree × List SPair)
    (seen : List SPair) (hs : ∀ p ∈ tk.2, p ∈ seen) :
    goodEventsB seen (tryAcceptTop cfg tk).1 = true ∧
    (∀ pr ∈ (tryAcceptTop cfg tk).2, ∀ p ∈ pr.2,
      p ∈ seen ++ visitsOf (tryAcceptTop cfg tk).1) := by
  obtain ⟨hg, hsp⟩ := acceptR_good cfg tk.1 tk.2 [] seen hs
  rw [tryAcceptTop]
  cases hae : (acceptR cfg tk.1 tk.2 []).exc with
  | none => exact ⟨hg, hsp⟩
  | some e =>
    dsimp only
    cases hfn : childFullName tk.1 tk.2 with
    | error e2 => exact ⟨hg, hsp⟩
    | ok fn =>
      refine ⟨?_, ?_⟩
      · rw [goodEventsB_ce_append]
        exact hg
      · intro pr hpr p hp
        rw [visitsOf_ce_append]
        exact hsp pr hpr p hp

/-- One pool step preserves the crawl invariant: the grown trace stays
parent-before-child sound and newly dispatched callbacks only rely on
already delivered visits. -/
theorem schedStep_preserves (cfg : CrawlConfig) (st st' : SchedState)
    (h : SchedStep cfg st st') (hinv : schedInv st) : schedInv st' := by
  cases h with
  | run pre post tk tr =>
    obtain ⟨hg, hp⟩ := hinv
    have hstk : ∀ p ∈ tk.2, p ∈ visitsOf tr := hp tk (by simp)
    obtain ⟨hg2, hsp2⟩ := tryAcceptTop_good cfg tk (visitsOf tr) hstk
    constructor
    · rw [goodEventsB_append, hg]
      simpa using hg2
    · intro pr hpr p hpp
      rw [visitsOf_append]
      simp only [List.append_assoc, List.mem_append] at hpr
      rcases hpr with h | h | h
      · exact List.mem_append_left _ (hp pr (by simp [h]) p hpp)
      · exact List.mem_append_left _ (hp pr (by simp [h]) p hpp)
      · have := hsp2 pr h p hpp
        simpa using this

/-- C1: along every schedule of the crawl — the root's `accept` and any
interleaving of dispatched subtree callbacks — each resource is delivered
to the visitor's sink only after every resource on its parent stack, its
parent in particular: `visit(parent)` happens before `visit(child)`, also
inside dispatched subtrees. -/
theorem c1_parent_visited_before_child (cfg : CrawlConfig) (root : RTree)
    (st : SchedState) (h : SchedReach cfg (initSched root) st) :
    goodEventsB [] st.trace = true := by
  have h' : Relation.ReflTransGen (SchedStep cfg) (initSched root) st := h
  clear h
  have hinv : schedInv st := by
    induction h' with
    | refl =>
      refine ⟨rfl, ?_⟩
      intro pr hpr p hpp
      simp only [initSched, List.mem_singleton] at hpr
      subst hpr
      simp at hpp
    | tail _ step ih => exact schedStep_preserves cfg _ _ step ih
  exact hinv.1

/-- Witness for C1: one pool step on `c1root` (which visits the root and
its inline lien child, and dispatches its project child). -/
theorem c1_parent_visited_before_child_witness :
    goodEventsB []
      (SchedState.trace
        ⟨[] ++ [] ++ (tryAcceptTop c1cfg (c1root, [])).2,
         [] ++ (tryAcceptTop c1cfg (c1root, [])).1⟩) = true := by
  exact c1_parent_visited_before_child c1cfg c1root _
    (Relation.ReflTransGen.single (SchedStep.run [] [] (c1root, []) []))

end Forseti
